import Mathlib

/-!
Verification development for the universal-loot-generator repository.

The definitions below are a shallow embedding of the generation engine in
`loot_generator/utils.py`: the data model (`LootItem`, `Material`), the
placeholder resolver (`resolve_material_placeholders`, lines 227-256) and the
weighted selection loop (`generate_loot`, lines 165-224).

Modelling conventions:
* Python `int` is `Int`; the float `modifier` is modelled as `ℚ` (exact
  rational arithmetic in place of IEEE doubles); `int(round(x))` is
  round-half-to-even (`pyRound`).
* All randomness (`random.choices`, `random.random() < 0.5`,
  `random.choice`) is drawn from one shared stream, modelled by an oracle
  `o : Nat → Nat` and a counter that each random event advances by one, in
  the same order as the Python calls.  `random.choices` with the all-positive
  weights `1/rarity` can return any element of the candidate list, so a draw
  is modelled as picking the oracle-chosen index modulo the list length;
  properties quantify over all oracles.
* `raise ValueError(...)` is the `Except` error channel; the two error kinds
  of the spec (`InvalidArgument`, `InvalidCatalog`) are distinguished
  constructors carrying the exact message text.
* The `while` loop is driven by explicit fuel; `none` signals that the fuel
  was exhausted with the loop condition still true (the Python loop would
  still be running).
* Python's truthiness (`if not include_tags`, `if materials`) makes a
  supplied empty list behave like an absent argument; the embedding keeps
  `Option` for the tag/rarity parameters and mirrors the emptiness test.
* Rational multiplication is written with `Rat.divInt` (`qMul`) because the
  library's `Rat.mul` is `@[irreducible]` and would block kernel evaluation;
  `qMul_eq_mul` proves it is ordinary multiplication on `ℚ`.
-/

namespace ULG

/-- `LootItem` dataclass (utils.py lines 9-15). -/
structure LootItem where
  name : String
  rarity : Int
  description : String
  point_value : Int
  tags : List String
deriving DecidableEq, Repr, Inhabited

/-- `Material` dataclass (utils.py lines 18-24); `modifier` is a float in the
source, modelled exactly as a rational. -/
structure Material where
  name : String
  modifier : ℚ
  type : String
deriving DecidableEq, Repr, Inhabited

/-- Error channel for `raise ValueError` in `generate_loot`; the spec names
the two kinds `InvalidArgument` (bad budget) and `InvalidCatalog`
(validation emptied the candidate set). -/
inductive GenError where
  | invalidArgument (msg : String)
  | invalidCatalog (msg : String)
deriving DecidableEq, Repr

/-- Kernel-evaluable multiplication on `ℚ` (the library `Rat.mul` is
irreducible); `qMul_eq_mul` below shows it is `*`. -/
def qMul (a b : ℚ) : ℚ := Rat.divInt (a.num * b.num) ((a.den : Int) * (b.den : Int))

/-- Embedding of the integer cast `ℤ → ℚ` by an evaluable term. -/
def intToQ (v : Int) : ℚ := Rat.divInt v 1

/-- Python `int(round(x))` on an exact rational: round half to even. -/
def pyRound (q : ℚ) : Int :=
  let d : Int := (q.den : Int)
  let f : Int := q.num / d
  let t : Int := 2 * (q.num - f * d)
  if t < d then f
  else if d < t then f + 1
  else if f % 2 = 0 then f else f + 1

/-- Characters allowed inside a placeholder token: the regex class
`[A-Za-z/]` of the pattern on utils.py line 237. -/
def isTokenChar (c : Char) : Bool := c.isAlpha || c == '/'

/-- Python `str.strip()` on the resolved name (utils.py line 256), for the
ASCII whitespace that can actually occur around removed tokens. -/
def stripChars (cs : List Char) : List Char :=
  ((cs.dropWhile Char.isWhitespace).reverse.dropWhile Char.isWhitespace).reverse

/-- `types_str.split("/")` (utils.py line 246). -/
def splitSlash : List Char → List (List Char)
  | [] => [[]]
  | '/' :: rest => [] :: splitSlash rest
  | c :: rest =>
    match splitSlash rest with
    | g :: gs => (c :: g) :: gs
    | [] => [[c]]

/-- Case-insensitive normalisation used by the `m.type.lower()` comparison on
utils.py line 247 (ASCII case folding). -/
def lowerChars (cs : List Char) : List Char := cs.map Char.toLower

/-- The regex `\[([A-Za-z/]+?)(?:(/o))?\]` puts the token run into group 1
and captures a trailing `/o` as group 2: with a non-greedy group 1 the `/o`
marker is split off exactly when the bracketed run ends in `/o` and at least
one character precedes it. -/
def isOptionalRun (run : List Char) : Bool :=
  decide (3 ≤ run.length) && (run.drop (run.length - 2) == ['/', 'o'])

/-- Body of `repl` after the optional-token test (utils.py lines 246-252):
split the type list, match material types case-insensitively, and on a match
choose a material, scaling the running modifier. -/
def replCore (materials : List Material) (o : Nat → Nat) (g1 : List Char)
    (k : Nat) (m : ℚ) : List Char × Nat × ℚ :=
  let types := (splitSlash g1).filter (fun t => !t.isEmpty)
  let lowered := types.map lowerChars
  let options := materials.filter (fun mat => lowered.contains (lowerChars mat.type.toList))
  match options with
  | [] => ([], k, m)
  | a :: as =>
    let mat := (a :: as).get ⟨o k % (a :: as).length, Nat.mod_lt _ (Nat.succ_pos as.length)⟩
    (mat.name.toList, k + 1, qMul m mat.modifier)

/-- The whole `repl` callback (utils.py lines 240-252): an optional token
first flips the fair coin (`random.random() < 0.5` modelled as the oracle
value being even) and on "drop" is replaced by empty text. -/
def replToken (materials : List Material) (o : Nat → Nat) (run : List Char)
    (k : Nat) (m : ℚ) : List Char × Nat × ℚ :=
  if isOptionalRun run then
    if o k % 2 == 0 then ([], k + 1, m)
    else replCore materials o (run.take (run.length - 2)) (k + 1) m
  else replCore materials o run k m

/-- Whether the placeholder regex matches at the position of character `c`
followed by `rest`: `c` is `[` and a non-empty run of token characters is
followed by `]`.  The regex' non-greedy group 1 combined with the optional
`(/o)` group matches exactly these positions, with group 1 plus marker equal
to the whole run (see `isOptionalRun` for the split). -/
def tokenAt (c : Char) (rest : List Char) : Bool :=
  c == '[' && !(rest.takeWhile isTokenChar).isEmpty
    && ((rest.dropWhile isTokenChar).head? == some ']')

/-- `pattern.sub(repl, name)` (utils.py line 254): scan left to right; where
the regex matches (`tokenAt`), substitute the whole token `[run]` by the
`repl` output and continue after the closing bracket; elsewhere emit the
character and move one position right (a failed match at `[` advances one
character, like the regex engine).  Replacements are never rescanned.  The
fuel argument makes the jump over a matched token structurally decreasing;
the scan consumes at least one character per step, so the initial character
count can never be exhausted. -/
def scanGo (materials : List Material) (o : Nat → Nat) :
    Nat → List Char → Nat → ℚ → List Char × Nat × ℚ
  | _, [], k, m => ([], k, m)
  | 0, cs, k, m => (cs, k, m)
  | fuel + 1, c :: rest, k, m =>
    if tokenAt c rest then
      let r := replToken materials o (rest.takeWhile isTokenChar) k m
      let s := scanGo materials o fuel (rest.dropWhile isTokenChar).tail r.2.1 r.2.2
      (r.1 ++ s.1, s.2.1, s.2.2)
    else
      let s := scanGo materials o fuel rest k m
      (c :: s.1, s.2.1, s.2.2)

/-- `resolve_material_placeholders` (utils.py lines 227-256).  Besides the
Python return value `(new_name.strip(), int(round(value * modifiers)))` the
embedding returns the advanced random counter. -/
def resolve_material_placeholders (name : String) (value : Int)
    (materials : List Material) (o : Nat → Nat) (k : Nat) :
    (String × Int) × Nat :=
  let r := scanGo materials o name.toList.length name.toList k 1
  ((String.mk (stripChars r.1), pyRound (qMul (intToQ value) r.2.2)), r.2.1)

/-- Whether a name contains at least one substring the placeholder regex
matches (same match condition as `scanGo`). -/
def hasToken : List Char → Bool
  | [] => false
  | c :: rest => tokenAt c rest || hasToken rest

/-- The conjunction of the four filter predicates of the candidate-list
comprehension (utils.py lines 176-183), including Python's truthiness: an
empty supplied tag list disables that filter. -/
def itemPasses (include_tags exclude_tags : Option (List String))
    (min_rarity max_rarity : Option Int) (item : LootItem) : Bool :=
  (match include_tags with
   | none => true
   | some l => l.isEmpty || l.any (fun t => item.tags.contains t))
  && (match exclude_tags with
   | none => true
   | some l => l.isEmpty || !(l.any (fun t => item.tags.contains t)))
  && (match min_rarity with
   | none => true
   | some r => decide (r ≤ item.rarity))
  && (match max_rarity with
   | none => true
   | some r => decide (item.rarity ≤ r))

/-- `filtered_items` (utils.py lines 176-183). -/
def filteredItems (items : List LootItem)
    (include_tags exclude_tags : Option (List String))
    (min_rarity max_rarity : Option Int) : List LootItem :=
  items.filter (itemPasses include_tags exclude_tags min_rarity max_rarity)

/-- `", ".join(item.name for item in items)` used in the error messages. -/
def joinNames (l : List LootItem) : String :=
  String.intercalate ", " (l.map LootItem.name)

/-- The body of one draw after the weighted choice picked `item0`
(utils.py lines 218-221): when a material catalog was supplied (Python's
`if materials:` — a non-empty list), rewrite name and value through the
resolver and build a new `LootItem` with the same rarity, description and
tags; the second component is the advanced random counter. -/
def drawStep (materials : List Material) (o : Nat → Nat) (k : Nat)
    (item0 : LootItem) : LootItem × Nat :=
  if materials.isEmpty then (item0, k + 1)
  else
    let r := resolve_material_placeholders item0.name item0.point_value materials o (k + 1)
    (⟨r.1.1, item0.rarity, item0.description, r.1.2, item0.tags⟩, r.2)

/-- The `while total_points < points` loop of `generate_loot`
(utils.py lines 211-224), with explicit fuel: `none` means the fuel ran out
while the loop condition still held. -/
def lootLoop (filtered : List LootItem) (points : Int)
    (materials : List Material) (o : Nat → Nat) :
    Nat → Int → Nat → List LootItem → Option (List LootItem)
  | 0, total, _, loot => if total < points then none else some loot
  | fuel + 1, total, k, loot =>
    if total < points then
      match filtered.filter (fun i => decide (i.point_value ≤ points - total)) with
      | [] => some loot
      | a :: as =>
        let item0 := (a :: as).get ⟨o k % (a :: as).length, Nat.mod_lt _ (Nat.succ_pos as.length)⟩
        let step := drawStep materials o k item0
        lootLoop filtered points materials o fuel
          (total + step.1.point_value) step.2 (loot ++ [step.1])
    else some loot

/-- `invalid_items` of the rarity validation (utils.py line 186). -/
def rarityInvalid (filtered : List LootItem) : List LootItem :=
  filtered.filter (fun i => decide (i.rarity ≤ 0))

/-- `filtered_items` after the rarity validation (utils.py lines 186-188):
re-filtered only when some item was invalid, otherwise left as is. -/
def validateRarity (filtered : List LootItem) : List LootItem :=
  if (rarityInvalid filtered).isEmpty then filtered
  else filtered.filter (fun i => decide (0 < i.rarity))

/-- The rarity validation fails (utils.py lines 187-193): some invalid item
existed and dropping the invalid ones emptied the candidate list. -/
def rarityFails (filtered : List LootItem) : Bool :=
  !(rarityInvalid filtered).isEmpty && (validateRarity filtered).isEmpty

/-- `invalid_value_items` of the point-value validation (utils.py line 196). -/
def valueInvalid (filtered : List LootItem) : List LootItem :=
  filtered.filter (fun i => decide (i.point_value ≤ 0))

/-- `filtered_items` after the point-value validation (utils.py lines
196-198). -/
def validateValue (filtered : List LootItem) : List LootItem :=
  if (valueInvalid filtered).isEmpty then filtered
  else filtered.filter (fun i => decide (0 < i.point_value))

/-- The point-value validation fails (utils.py lines 197-203). -/
def valueFails (filtered : List LootItem) : Bool :=
  !(valueInvalid filtered).isEmpty && (validateValue filtered).isEmpty

/-- `generate_loot` (utils.py lines 165-224): argument check, filtering, the
two validation passes (the second one applied to the list left by the
first), then the selection loop. -/
def generate_loot (items : List LootItem) (points : Int)
    (include_tags exclude_tags : Option (List String))
    (min_rarity max_rarity : Option Int) (materials : List Material)
    (o : Nat → Nat) (fuel : Nat) : Except GenError (Option (List LootItem)) :=
  if points ≤ 0 then
    .error (.invalidArgument "points must be positive")
  else
    let filtered := filteredItems items include_tags exclude_tags min_rarity max_rarity
    if rarityFails filtered then
      .error (.invalidCatalog ("All filtered items have non-positive rarity: "
        ++ joinNames (rarityInvalid filtered)))
    else
      let filtered1 := validateRarity filtered
      if valueFails filtered1 then
        .error (.invalidCatalog ("All filtered items have non-positive point value: "
          ++ joinNames (valueInvalid filtered1)))
      else
        let filtered2 := validateValue filtered1
        if filtered2.isEmpty then
          .ok (some [])
        else
          .ok (lootLoop filtered2 points materials o fuel 0 0 [])

/-- Total point cost of a generated sequence. -/
def lootSum (l : List LootItem) : Int := (l.map LootItem.point_value).sum

/-- Decidable equality for `Except` results, so concrete runs of
`generate_loot` can be checked by `decide`. -/
instance {ε α : Type} [DecidableEq ε] [DecidableEq α] : DecidableEq (Except ε α)
  | .ok a, .ok b =>
    if h : a = b then .isTrue (by rw [h]) else .isFalse (fun hh => h (by cases hh; rfl))
  | .ok _, .error _ => .isFalse (fun hh => Except.noConfusion hh)
  | .error _, .ok _ => .isFalse (fun hh => Except.noConfusion hh)
  | .error e, .error e' =>
    if h : e = e' then .isTrue (by rw [h]) else .isFalse (fun hh => h (by cases hh; rfl))

/-! Basic facts about the arithmetic embedding. -/

theorem qMul_eq_mul (a b : ℚ) : qMul a b = a * b := by
  rw [qMul, ← Rat.divInt_mul_divInt', Rat.num_divInt_den, Rat.num_divInt_den]

theorem intToQ_eq (v : Int) : intToQ v = (v : ℚ) := by
  rw [intToQ, Rat.intCast_eq_divInt]

theorem pyRound_intCast (v : Int) : pyRound ((v : Int) : ℚ) = v := by
  have hn : ((v : ℚ)).num = v := Rat.num_intCast v
  have hd : ((v : ℚ)).den = 1 := Rat.den_intCast v
  simp only [pyRound, hn, hd]
  norm_num

theorem pyRound_one_mul (v : Int) : pyRound (qMul (intToQ v) 1) = v := by
  rw [qMul_eq_mul, intToQ_eq, mul_one, pyRound_intCast]

/-! Facts about the placeholder scanner. -/

theorem replCore_nil_materials (o : Nat → Nat) (g1 : List Char) (k : Nat) (m : ℚ) :
    replCore [] o g1 k m = ([], k, m) := by
  simp [replCore]

theorem replToken_nil_materials (o : Nat → Nat) (run : List Char) (k : Nat) (m : ℚ) :
    (replToken [] o run k m).1 = [] ∧ (replToken [] o run k m).2.2 = m := by
  unfold replToken
  split
  · split
    · exact ⟨rfl, rfl⟩
    · rw [replCore_nil_materials]
      exact ⟨rfl, rfl⟩
  · rw [replCore_nil_materials]
    exact ⟨rfl, rfl⟩

/-- Scanning with an empty material catalog never touches the modifier
accumulator: every token is replaced by empty text. -/
theorem scanGo_nil_materials (o : Nat → Nat) :
    ∀ (fuel : Nat) (cs : List Char) (k : Nat) (m : ℚ),
      (scanGo [] o fuel cs k m).2.2 = m := by
  intro fuel
  induction fuel with
  | zero => intro cs k m; cases cs <;> simp [scanGo]
  | succ n ih =>
    intro cs k m
    cases cs with
    | nil => simp [scanGo]
    | cons c rest =>
      rw [scanGo]
      split
      · have h2 := (replToken_nil_materials o (rest.takeWhile isTokenChar) k m).2
        simp only [h2, ih]
      · simp only [ih]

/-- Where the regex never matches, the scan is the identity and consumes no
randomness. -/
theorem scanGo_no_token (materials : List Material) (o : Nat → Nat) :
    ∀ (fuel : Nat) (cs : List Char) (k : Nat) (m : ℚ),
      hasToken cs = false → cs.length ≤ fuel →
      scanGo materials o fuel cs k m = (cs, k, m) := by
  intro fuel
  induction fuel with
  | zero =>
    intro cs k m _ hlen
    have : cs = [] := List.length_eq_zero.mp (Nat.le_zero.mp hlen)
    subst this
    simp [scanGo]
  | succ n ih =>
    intro cs k m htok hlen
    cases cs with
    | nil => simp [scanGo]
    | cons c rest =>
      rw [hasToken] at htok
      have hor := Bool.or_eq_false_iff.mp htok
      rw [scanGo, if_neg (by simp [hor.1])]
      have hrest : scanGo materials o n rest k m = (rest, k, m) :=
        ih rest k m hor.2 (Nat.le_of_succ_le_succ (by simpa using hlen))
      simp [hrest]

/-- Substituting a single material with a case-insensitive type match into
the token `[Metal]`: the `repl` callback picks the only option and scales
the modifier. -/
theorem replToken_metal (m : Material) (o : Nat → Nat) (k : Nat) (mm : ℚ)
    (h : lowerChars m.type.toList = "metal".toList) :
    replToken [m] o "Metal".toList k mm = (m.name.toList, k + 1, qMul mm m.modifier) := by
  rw [replToken, if_neg (by decide)]
  rw [replCore]
  have hsplit : (splitSlash "Metal".toList).filter (fun t => !t.isEmpty)
      = ["Metal".toList] := by decide
  simp only [hsplit, List.map_cons, List.map_nil]
  have hlow : lowerChars "Metal".toList = "metal".toList := by decide
  have hcond : [lowerChars "Metal".toList].contains (lowerChars m.type.toList) = true := by
    rw [hlow, h]
    simp
  simp only [List.filter, hcond]
  simp [Nat.mod_one]

/-- Scanning `[Metal] Sword` with a single type-matching material resolves
the token to the material name, for any oracle. -/
theorem scan_metal_sword (m : Material) (o : Nat → Nat) (k : Nat)
    (h : lowerChars m.type.toList = "metal".toList) :
    ∀ fuel, 6 ≤ fuel →
      scanGo [m] o (fuel + 1) ('[' :: "Metal] Sword".toList) k 1
        = (m.name.toList ++ " Sword".toList, k + 1, qMul 1 m.modifier) := by
  intro fuel hfuel
  rw [scanGo, if_pos (by decide)]
  have ht : "Metal] Sword".toList.takeWhile isTokenChar = "Metal".toList := by decide
  have hd : ("Metal] Sword".toList.dropWhile isTokenChar).tail = " Sword".toList := by decide
  simp only [ht, hd, replToken_metal m o k 1 h]
  rw [scanGo_no_token [m] o fuel " Sword".toList (k + 1) (qMul 1 m.modifier)
    (by decide) (le_trans (by decide) hfuel)]

/-! Facts about the validation passes. -/

theorem validateRarity_eq (l : List LootItem) :
    validateRarity l = l.filter (fun i => decide (0 < i.rarity)) := by
  unfold validateRarity
  split
  · next h =>
    have h' : rarityInvalid l = [] := List.isEmpty_iff.mp h
    have hall : ∀ i ∈ l, decide (0 < i.rarity) = true := by
      intro i hi
      have hni := List.filter_eq_nil_iff.mp h' i hi
      simp only [decide_eq_true_eq] at hni ⊢
      omega
    exact (List.filter_eq_self.mpr hall).symm
  · rfl

theorem validateValue_eq (l : List LootItem) :
    validateValue l = l.filter (fun i => decide (0 < i.point_value)) := by
  unfold validateValue
  split
  · next h =>
    have h' : valueInvalid l = [] := List.isEmpty_iff.mp h
    have hall : ∀ i ∈ l, decide (0 < i.point_value) = true := by
      intro i hi
      have hni := List.filter_eq_nil_iff.mp h' i hi
      simp only [decide_eq_true_eq] at hni ⊢
      omega
    exact (List.filter_eq_self.mpr hall).symm
  · rfl

theorem rarityFails_iff (l : List LootItem) :
    rarityFails l = true ↔ l ≠ [] ∧ l.filter (fun i => decide (0 < i.rarity)) = [] := by
  unfold rarityFails
  rw [Bool.and_eq_true, Bool.not_eq_true', validateRarity_eq]
  constructor
  · rintro ⟨h1, h2⟩
    refine ⟨?_, List.isEmpty_iff.mp h2⟩
    intro hl
    subst hl
    simp [rarityInvalid] at h1
  · rintro ⟨h1, h2⟩
    refine ⟨?_, List.isEmpty_iff.mpr h2⟩
    have hall : ∀ i ∈ l, decide (i.rarity ≤ 0) = true := by
      intro i hi
      have hni := List.filter_eq_nil_iff.mp h2 i hi
      simp only [decide_eq_true_eq] at hni ⊢
      omega
    have : rarityInvalid l = l := List.filter_eq_self.mpr hall
    rw [this]
    cases l with
    | nil => exact absurd rfl h1
    | cons a as => rfl

theorem valueFails_iff (l : List LootItem) :
    valueFails l = true ↔ l ≠ [] ∧ l.filter (fun i => decide (0 < i.point_value)) = [] := by
  unfold valueFails
  rw [Bool.and_eq_true, Bool.not_eq_true', validateValue_eq]
  constructor
  · rintro ⟨h1, h2⟩
    refine ⟨?_, List.isEmpty_iff.mp h2⟩
    intro hl
    subst hl
    simp [valueInvalid] at h1
  · rintro ⟨h1, h2⟩
    refine ⟨?_, List.isEmpty_iff.mpr h2⟩
    have hall : ∀ i ∈ l, decide (i.point_value ≤ 0) = true := by
      intro i hi
      have hni := List.filter_eq_nil_iff.mp h2 i hi
      simp only [decide_eq_true_eq] at hni ⊢
      omega
    have : valueInvalid l = l := List.filter_eq_self.mpr hall
    rw [this]
    cases l with
    | nil => exact absurd rfl h1
    | cons a as => rfl

/-- Items surviving both validation passes are the filtered items with
positive rarity and positive point value. -/
theorem validated_mem (l : List LootItem) (i : LootItem) :
    i ∈ validateValue (validateRarity l) ↔
      i ∈ l ∧ 0 < i.rarity ∧ 0 < i.point_value := by
  rw [validateValue_eq, validateRarity_eq, List.mem_filter, List.mem_filter]
  simp only [decide_eq_true_eq]
  tauto

/-! Facts about the selection loop. -/

theorem drawStep_rarity (materials : List Material) (o : Nat → Nat) (k : Nat)
    (item0 : LootItem) : (drawStep materials o k item0).1.rarity = item0.rarity := by
  unfold drawStep
  split
  · rfl
  · rfl

theorem drawStep_tags (materials : List Material) (o : Nat → Nat) (k : Nat)
    (item0 : LootItem) : (drawStep materials o k item0).1.tags = item0.tags := by
  unfold drawStep
  split
  · rfl
  · rfl

theorem drawStep_nil (o : Nat → Nat) (k : Nat) (item0 : LootItem) :
    drawStep [] o k item0 = (item0, k + 1) := by
  simp [drawStep]

theorem lootSum_snoc (l : List LootItem) (x : LootItem) :
    lootSum (l ++ [x]) = lootSum l + x.point_value := by
  simp [lootSum]

/-- The loop only extends its accumulator. -/
theorem lootLoop_grows (filtered : List LootItem) (points : Int)
    (materials : List Material) (o : Nat → Nat) :
    ∀ (fuel : Nat) (total : Int) (k : Nat) (loot l : List LootItem),
      lootLoop filtered points materials o fuel total k loot = some l →
      loot.length ≤ l.length := by
  intro fuel
  induction fuel with
  | zero =>
    intro total k loot l h
    rw [lootLoop] at h
    split at h
    · exact absurd h (by simp)
    · cases h
      exact le_refl _
  | succ n ih =>
    intro total k loot l h
    rw [lootLoop] at h
    split at h
    · split at h
      · cases h
        exact le_refl _
      · have hrec := ih _ _ _ _ h
        rw [List.length_append] at hrec
        simp only [List.length_cons, List.length_nil] at hrec
        omega
    · cases h
      exact le_refl _

/-- Every item the loop emits either was in the accumulator already or
shares rarity and tags with some member of the candidate list. -/
theorem lootLoop_mem_src (filtered : List LootItem) (points : Int)
    (materials : List Material) (o : Nat → Nat) :
    ∀ (fuel : Nat) (total : Int) (k : Nat) (loot l : List LootItem),
      lootLoop filtered points materials o fuel total k loot = some l →
      ∀ it ∈ l, it ∈ loot ∨
        ∃ src ∈ filtered, it.rarity = src.rarity ∧ it.tags = src.tags := by
  intro fuel
  induction fuel with
  | zero =>
    intro total k loot l h it hit
    rw [lootLoop] at h
    split at h
    · exact absurd h (by simp)
    · cases h
      exact Or.inl hit
  | succ n ih =>
    intro total k loot l h it hit
    rw [lootLoop] at h
    split at h
    · split at h
      · cases h
        exact Or.inl hit
      · next a as heq =>
        have hrec := ih _ _ _ _ h it hit
        rcases hrec with hin | hsrc
        · rcases List.mem_append.mp hin with hl | hx
          · exact Or.inl hl
          · right
            have hx' : it = (drawStep materials o k
                ((a :: as).get ⟨o k % (a :: as).length,
                  Nat.mod_lt _ (Nat.succ_pos as.length)⟩)).1 := by
              simpa using hx
            set item0 := (a :: as).get ⟨o k % (a :: as).length,
              Nat.mod_lt _ (Nat.succ_pos as.length)⟩ with hitem0
            have hmem : item0 ∈ a :: as := List.get_mem _ _ _
            rw [← heq] at hmem
            have hmemf : item0 ∈ filtered := (List.mem_filter.mp hmem).1
            refine ⟨item0, hmemf, ?_, ?_⟩
            · rw [hx', drawStep_rarity]
            · rw [hx', drawStep_tags]
        · exact Or.inr hsrc
    · cases h
      exact Or.inl hit

/-- Budget invariant (no materials): each drawn item's cost fits the
remaining budget, so the final total never exceeds `points`. -/
theorem lootLoop_sum_le (filtered : List LootItem) (points : Int) (o : Nat → Nat) :
    ∀ (fuel : Nat) (total : Int) (k : Nat) (loot l : List LootItem),
      lootLoop filtered points [] o fuel total k loot = some l →
      total = lootSum loot → total ≤ points → lootSum l ≤ points := by
  intro fuel
  induction fuel with
  | zero =>
    intro total k loot l h hsum hle
    rw [lootLoop] at h
    split at h
    · exact absurd h (by simp)
    · cases h
      rw [← hsum]
      exact hle
  | succ n ih =>
    intro total k loot l h hsum hle
    rw [lootLoop] at h
    split at h
    · next hlt =>
      split at h
      · cases h
        rw [← hsum]
        exact hle
      · next a as heq =>
        dsimp only at h
        set item0 := (a :: as).get ⟨o k % (a :: as).length,
          Nat.mod_lt _ (Nat.succ_pos as.length)⟩ with hitem0
        rw [drawStep_nil] at h
        dsimp only at h
        have hmem : item0 ∈ a :: as := List.get_mem _ _ _
        rw [← heq] at hmem
        have hfits : item0.point_value ≤ points - total := by
          have := (List.mem_filter.mp hmem).2
          simpa using this
        exact ih _ _ _ _ h (by rw [lootSum_snoc, hsum]) (by omega)
    · cases h
      rw [← hsum]
      exact hle

/-- Fuel bound (no materials): when every candidate has positive cost, each
iteration strictly shrinks the remaining budget, so `(points - total)` fuel
suffices for the loop to finish. -/
theorem lootLoop_fuel_enough (filtered : List LootItem) (points : Int) (o : Nat → Nat)
    (hpos : ∀ i ∈ filtered, 0 < i.point_value) :
    ∀ (fuel : Nat) (total : Int) (k : Nat) (loot : List LootItem),
      (points - total).toNat ≤ fuel →
      lootLoop filtered points [] o fuel total k loot ≠ none := by
  intro fuel
  induction fuel with
  | zero =>
    intro total k loot hfuel
    rw [lootLoop]
    split
    · next hlt => omega
    · simp
  | succ n ih =>
    intro total k loot hfuel
    rw [lootLoop]
    split
    · next hlt =>
      split
      · simp
      · next a as heq =>
        dsimp only
        set item0 := (a :: as).get ⟨o k % (a :: as).length,
          Nat.mod_lt _ (Nat.succ_pos as.length)⟩ with hitem0
        rw [drawStep_nil]
        dsimp only
        have hmem : item0 ∈ a :: as := List.get_mem _ _ _
        rw [← heq] at hmem
        have hp : 0 < item0.point_value := hpos item0 (List.mem_filter.mp hmem).1
        exact ih _ _ _ (by omega)
    · simp

/-- C5 (amended): on a name in which the placeholder regex never matches,
`resolve` returns the name with surrounding whitespace stripped (hence
unchanged whenever it has none), the value unchanged, and consumes no
randomness. -/
theorem C5_resolve_no_token (name : String) (value : Int)
    (materials : List Material) (o : Nat → Nat) (k : Nat)
    (h : hasToken name.toList = false) :
    resolve_material_placeholders name value materials o k
      = ((String.mk (stripChars name.toList), value), k) := by
  unfold resolve_material_placeholders
  rw [scanGo_no_token materials o name.toList.length name.toList k 1 h (le_refl _)]
  dsimp only
  rw [pyRound_one_mul]

/-- C5 witness: a token-free name without surrounding whitespace comes back
unchanged with its value. -/
theorem C5_witness :
    hasToken "Sword".toList = false ∧
    resolve_material_placeholders "Sword" 10 [] (fun _ => 0) 0 = (("Sword", 10), 0) := by
  refine ⟨by decide, ?_⟩
  rw [C5_resolve_no_token "Sword" 10 [] (fun _ => 0) 0 (by decide)]
  decide

/-- C5 counterexample: `" Sword"` contains no bracketed token, yet `resolve`
does not return the name unchanged — the final `strip()` removes the leading
space. -/
theorem C5_counterexample :
    hasToken " Sword".toList = false ∧
    (resolve_material_placeholders " Sword" 10 [] (fun _ => 0) 0).1.1 = "Sword" ∧
    (resolve_material_placeholders " Sword" 10 [] (fun _ => 0) 0).1.1 ≠ " Sword" := by
  decide

/-- When no material of the catalog matches the token's type list, `repl`
returns empty text without touching the modifier or consuming randomness
(utils.py lines 248-249). -/
theorem replCore_options_nil (materials : List Material) (o : Nat → Nat)
    (g1 : List Char) (k : Nat) (m : ℚ)
    (h : materials.filter (fun mat =>
        (((splitSlash g1).filter (fun t => !t.isEmpty)).map lowerChars).contains
          (lowerChars mat.type.toList)) = []) :
    replCore materials o g1 k m = ([], k, m) := by
  unfold replCore
  dsimp only
  rw [h]

/-- The non-optional token `[Metal]` over a catalog without any
case-insensitive `Metal`-typed material is substituted by empty text, with
no modifier applied. -/
theorem replToken_metal_no_match (materials : List Material) (o : Nat → Nat)
    (k : Nat) (mm : ℚ)
    (h : ∀ mat ∈ materials, lowerChars mat.type.toList ≠ "metal".toList) :
    replToken materials o "Metal".toList k mm = ([], k, mm) := by
  rw [replToken, if_neg (by decide)]
  apply replCore_options_nil
  apply List.filter_eq_nil_iff.mpr
  intro mat hmat
  rw [show ((splitSlash "Metal".toList).filter (fun t => !t.isEmpty)).map lowerChars
      = ["metal".toList] from by decide]
  intro hc
  exact h mat hmat (List.mem_singleton.mp (List.mem_of_elem_eq_true hc))

/-- Scanning `[Metal] Sword` over a catalog with no matching material drops
the token silently, for any oracle. -/
theorem scan_metal_sword_no_match (materials : List Material) (o : Nat → Nat) (k : Nat)
    (h : ∀ mat ∈ materials, lowerChars mat.type.toList ≠ "metal".toList) :
    ∀ fuel, 6 ≤ fuel →
      scanGo materials o (fuel + 1) ('[' :: "Metal] Sword".toList) k 1
        = (" Sword".toList, k, 1) := by
  intro fuel hfuel
  rw [scanGo, if_pos (by decide)]
  have ht : "Metal] Sword".toList.takeWhile isTokenChar = "Metal".toList := by decide
  have hd : ("Metal] Sword".toList.dropWhile isTokenChar).tail = " Sword".toList := by decide
  simp only [ht, hd, replToken_metal_no_match materials o k 1 h]
  rw [scanGo_no_token materials o fuel " Sword".toList k 1 (by decide)
    (le_trans (by decide) hfuel)]
  rfl

/-- C7: `resolve` is total (the embedding returns a result for every name,
value and material catalog); for *every* catalog — empty or not — in which
no material's type matches the non-optional token `[Metal]`
case-insensitively, the token is replaced by empty text with no modifier
applied: the name loses the token (whitespace around it is trimmed) and the
value is returned unchanged with no randomness consumed, whatever the
oracle.  In addition, with the empty catalog the returned value equals the
input value for *every* name.  In particular
`resolve("[Metal] Sword", 10, [])` is `("Sword", 10)`. -/
theorem C7_resolve_unmatched_token (value : Int) (materials : List Material)
    (o : Nat → Nat) (k : Nat)
    (h : ∀ mat ∈ materials, lowerChars mat.type.toList ≠ "metal".toList) :
    resolve_material_placeholders "[Metal] Sword" value materials o k
      = (("Sword", value), k) ∧
    (∀ (name : String) (value' : Int) (o' : Nat → Nat) (k' : Nat),
      (resolve_material_placeholders name value' [] o' k').1.2 = value') := by
  constructor
  · unfold resolve_material_placeholders
    rw [show "[Metal] Sword".toList.length = 12 + 1 from by decide]
    rw [show "[Metal] Sword".toList = '[' :: "Metal] Sword".toList from rfl]
    rw [scan_metal_sword_no_match materials o k h 12 (by decide)]
    dsimp only
    rw [pyRound_one_mul]
    rw [show String.mk (stripChars " Sword".toList) = "Sword" from by decide]
  · intro name value' o' k'
    unfold resolve_material_placeholders
    dsimp only
    rw [scanGo_nil_materials]
    rw [pyRound_one_mul]

/-- C7 witness: a non-empty catalog without any `Metal`-typed material (and
the spec's empty-catalog example) both drop the token and keep the value. -/
theorem C7_witness :
    resolve_material_placeholders "[Metal] Sword" 10 [⟨"Oak", Rat.divInt 13 10, "Wood"⟩]
      (fun _ => 0) 0 = (("Sword", 10), 0) ∧
    resolve_material_placeholders "[Metal] Sword" 10 [] (fun _ => 0) 0
      = (("Sword", 10), 0) := by
  constructor
  · exact (C7_resolve_unmatched_token 10 [⟨"Oak", Rat.divInt 13 10, "Wood"⟩]
      (fun _ => 0) 0 (by decide)).1
  · exact (C7_resolve_unmatched_token 10 [] (fun _ => 0) 0 (by decide)).1

/-- C8: with a single-type non-optional token and exactly one material whose
type matches the token label case-insensitively, `resolve` substitutes
deterministically — the result does not depend on the random source: the
token is replaced by the material's name (the resolver then trims the ends)
and the cost is `round(value * modifier)`. -/
theorem C8_resolve_single_material (value : Int) (m : Material) (o : Nat → Nat) (k : Nat)
    (h : lowerChars m.type.toList = "metal".toList) :
    resolve_material_placeholders "[Metal] Sword" value [m] o k
      = ((String.mk (stripChars (m.name.toList ++ " Sword".toList)),
          pyRound ((value : ℚ) * m.modifier)), k + 1) := by
  unfold resolve_material_placeholders
  rw [show "[Metal] Sword".toList.length = 12 + 1 from by decide]
  rw [show "[Metal] Sword".toList = '[' :: "Metal] Sword".toList from rfl]
  rw [scan_metal_sword m o k h 12 (by decide)]
  dsimp only
  rw [qMul_eq_mul, qMul_eq_mul, intToQ_eq, one_mul]

/-- C8 witness: the spec's example, `resolve("[Metal] Sword", 10,
[Steel/1.2/Metal])` gives `("Steel Sword", 12)` whatever the oracle says. -/
theorem C8_witness :
    resolve_material_placeholders "[Metal] Sword" 10 [⟨"Steel", Rat.divInt 6 5, "Metal"⟩]
      (fun _ => 0) 0 = (("Steel Sword", 12), 1) := by
  rw [C8_resolve_single_material 10 ⟨"Steel", Rat.divInt 6 5, "Metal"⟩ (fun _ => 0) 0 (by decide)]
  dsimp only
  rw [show ((10 : Int) : ℚ) * Rat.divInt 6 5 = ((12 : Int) : ℚ) from by
    rw [Rat.divInt_eq_div]; norm_num]
  rw [pyRound_intCast]
  decide

/-- C6: `generate` fails with `InvalidArgument` (message "points must be
positive") exactly when `points ≤ 0`; the check precedes filtering and
drawing — the outcome is the same for every catalog, filter, material list,
oracle and fuel. -/
theorem C6_points_guard (items : List LootItem) (points : Int)
    (incl excl : Option (List String)) (minr maxr : Option Int)
    (materials : List Material) (o : Nat → Nat) (fuel : Nat) :
    (points ≤ 0 →
      generate_loot items points incl excl minr maxr materials o fuel
        = .error (.invalidArgument "points must be positive")) ∧
    (0 < points → ∀ msg,
      generate_loot items points incl excl minr maxr materials o fuel
        ≠ .error (.invalidArgument msg)) := by
  constructor
  · intro h
    unfold generate_loot
    rw [if_pos h]
  · intro h msg
    unfold generate_loot
    rw [if_neg (by omega)]
    dsimp only
    split
    · simp
    · split
      · simp
      · split
        · simp
        · simp

/-- C6 witness: a non-positive budget is rejected. -/
theorem C6_witness :
    generate_loot [] 0 none none none none [] (fun _ => 0) 0
      = .error (.invalidArgument "points must be positive") :=
  (C6_points_guard [] 0 none none none none [] (fun _ => 0) 0).1 (by norm_num)

/-- C9: with a positive budget, an empty filtered candidate set (filters
removed everything, or the catalog was empty) yields the empty sequence and
no error; and whenever some filtered item passes validation the run never
raises — stopping because no remaining candidate fits the budget gives a
partial (possibly empty) result, not an error. -/
theorem C9_empty_result_is_ok (items : List LootItem) (points : Int)
    (incl excl : Option (List String)) (minr maxr : Option Int)
    (materials : List Material) (o : Nat → Nat) (fuel : Nat) (hp : 0 < points) :
    (filteredItems items incl excl minr maxr = [] →
      generate_loot items points incl excl minr maxr materials o fuel = .ok (some [])) ∧
    ((∃ i ∈ filteredItems items incl excl minr maxr, 0 < i.rarity ∧ 0 < i.point_value) →
      ∀ e, generate_loot items points incl excl minr maxr materials o fuel ≠ .error e) := by
  constructor
  · intro hF
    unfold generate_loot
    rw [if_neg (by omega)]
    dsimp only
    rw [hF]
    rfl
  · rintro ⟨i, hiF, hir, hiv⟩ e heq
    unfold generate_loot at heq
    rw [if_neg (by omega)] at heq
    dsimp only at heq
    split at heq
    · next hfail =>
      rw [rarityFails_iff] at hfail
      have hmem : i ∈ (filteredItems items incl excl minr maxr).filter
          (fun it => decide (0 < it.rarity)) :=
        List.mem_filter.mpr ⟨hiF, by simpa using hir⟩
      rw [hfail.2] at hmem
      exact absurd hmem (List.not_mem_nil i)
    · split at heq
      · next hfail =>
        rw [valueFails_iff] at hfail
        have hi1 : i ∈ validateRarity (filteredItems items incl excl minr maxr) := by
          rw [validateRarity_eq]
          exact List.mem_filter.mpr ⟨hiF, by simpa using hir⟩
        have hmem : i ∈ (validateRarity (filteredItems items incl excl minr maxr)).filter
            (fun it => decide (0 < it.point_value)) :=
          List.mem_filter.mpr ⟨hi1, by simpa using hiv⟩
        rw [hfail.2] at hmem
        exact absurd hmem (List.not_mem_nil i)
      · split at heq
        · exact Except.noConfusion heq
        · exact Except.noConfusion heq

/-- C9 witness: the empty catalog silently generates nothing. -/
theorem C9_witness :
    generate_loot [] 5 none none none none [] (fun _ => 0) 5 = .ok (some []) :=
  (C9_empty_result_is_ok [] 5 none none none none [] (fun _ => 0) 5 (by norm_num)).1 (by decide)

/-- C10: if some validated candidate's base cost is within the budget, any
completed run returns a non-empty sequence — the first draw always
succeeds, with or without a material catalog. -/
theorem C10_first_draw_succeeds (items : List LootItem) (points : Int)
    (incl excl : Option (List String)) (minr maxr : Option Int)
    (materials : List Material) (o : Nat → Nat) (fuel : Nat) (l : List LootItem)
    (hp : 0 < points)
    (hex : ∃ i ∈ validateValue (validateRarity (filteredItems items incl excl minr maxr)),
      i.point_value ≤ points)
    (hgen : generate_loot items points incl excl minr maxr materials o fuel
      = .ok (some l)) :
    l ≠ [] := by
  obtain ⟨i, hiv, hifits⟩ := hex
  unfold generate_loot at hgen
  rw [if_neg (by omega)] at hgen
  dsimp only at hgen
  split at hgen
  · exact Except.noConfusion hgen
  · split at hgen
    · exact Except.noConfusion hgen
    · split at hgen
      · next hemp =>
        have hnil : validateValue (validateRarity
            (filteredItems items incl excl minr maxr)) = [] := List.isEmpty_iff.mp hemp
        rw [hnil] at hiv
        exact absurd hiv (List.not_mem_nil i)
      · have hloop : lootLoop (validateValue (validateRarity
            (filteredItems items incl excl minr maxr))) points materials o fuel 0 0 []
            = some l := by
          injection hgen
        cases fuel with
        | zero =>
          rw [lootLoop] at hloop
          rw [if_pos (by omega)] at hloop
          exact Option.noConfusion hloop
        | succ n =>
          rw [lootLoop] at hloop
          rw [if_pos (by omega)] at hloop
          have hav : i ∈ (validateValue (validateRarity
              (filteredItems items incl excl minr maxr))).filter
              (fun it => decide (it.point_value ≤ points - 0)) :=
            List.mem_filter.mpr ⟨hiv, by simpa using (by omega : i.point_value ≤ points - 0)⟩
          split at hloop
          · next heq =>
            rw [heq] at hav
            exact absurd hav (List.not_mem_nil i)
          · next a as heq =>
            have hlen := lootLoop_grows _ _ _ _ _ _ _ _ _ hloop
            intro hnil
            subst hnil
            rw [List.length_append] at hlen
            simp at hlen

/-- C10 witness: one affordable validated item, drawn through the resolver,
makes the result non-empty. -/
theorem C10_witness : ([⟨"Iron Axe", 1, "", 5, []⟩] : List LootItem) ≠ [] :=
  C10_first_draw_succeeds [⟨"[Metal] Axe", 1, "", 5, []⟩] 5 none none none none
    [⟨"Iron", 1, "Metal"⟩] (fun _ => 0) 5 [⟨"Iron Axe", 1, "", 5, []⟩]
    (by norm_num) (by decide) (by decide)

/-- Unpacking a successful `itemPasses` check into the four filter
predicates.  Note the Python truthiness: a supplied empty `include_tags`
imposes nothing. -/
theorem itemPasses_spec (incl excl : Option (List String)) (minr maxr : Option Int)
    (item : LootItem) (h : itemPasses incl excl minr maxr item = true) :
    (∀ ts, incl = some ts → ts ≠ [] → ∃ t ∈ ts, t ∈ item.tags) ∧
    (∀ ts, excl = some ts → ∀ t ∈ ts, t ∉ item.tags) ∧
    (∀ r, minr = some r → r ≤ item.rarity) ∧
    (∀ r, maxr = some r → item.rarity ≤ r) := by
  unfold itemPasses at h
  rw [Bool.and_eq_true, Bool.and_eq_true, Bool.and_eq_true] at h
  obtain ⟨⟨⟨h1, h2⟩, h3⟩, h4⟩ := h
  refine ⟨?_, ?_, ?_, ?_⟩
  · intro ts hts hne
    subst hts
    dsimp only at h1
    rcases Bool.or_eq_true _ _ |>.mp h1 with hemp | hany
    · exact absurd (List.isEmpty_iff.mp hemp) hne
    · obtain ⟨t, ht, hmem⟩ := List.any_eq_true.mp hany
      exact ⟨t, ht, List.mem_of_elem_eq_true hmem⟩
  · intro ts hts t ht hmem
    subst hts
    dsimp only at h2
    rcases Bool.or_eq_true _ _ |>.mp h2 with hemp | hnot
    · rw [List.isEmpty_iff.mp hemp] at ht
      exact absurd ht (List.not_mem_nil t)
    · have : ts.any (fun t => item.tags.contains t) = true :=
        List.any_eq_true.mpr ⟨t, ht, List.elem_eq_true_of_mem hmem⟩
      rw [this] at hnot
      exact Bool.noConfusion hnot
  · intro r hr
    subst hr
    dsimp only at h3
    exact of_decide_eq_true h3
  · intro r hr
    subst hr
    dsimp only at h4
    exact of_decide_eq_true h4

/-- C3 (amended): every item in a completed generation satisfies every
supplied filter predicate: when `include_tags` is supplied *non-empty* the
item's tags intersect it, when `exclude_tags` is supplied the item's tags
are disjoint from it, and the rarity lies within the supplied inclusive
bounds.  (A supplied but empty `include_tags` is falsy in Python and
disables the inclusion filter — see the counterexample.) -/
theorem C3_filters_respected (items : List LootItem) (points : Int)
    (incl excl : Option (List String)) (minr maxr : Option Int)
    (materials : List Material) (o : Nat → Nat) (fuel : Nat) (l : List LootItem)
    (hgen : generate_loot items points incl excl minr maxr materials o fuel
      = .ok (some l)) :
    ∀ it ∈ l,
      (∀ ts, incl = some ts → ts ≠ [] → ∃ t ∈ ts, t ∈ it.tags) ∧
      (∀ ts, excl = some ts → ∀ t ∈ ts, t ∉ it.tags) ∧
      (∀ r, minr = some r → r ≤ it.rarity) ∧
      (∀ r, maxr = some r → it.rarity ≤ r) := by
  intro it hit
  by_cases hp : points ≤ 0
  · unfold generate_loot at hgen
    rw [if_pos hp] at hgen
    exact Except.noConfusion hgen
  · unfold generate_loot at hgen
    rw [if_neg hp] at hgen
    dsimp only at hgen
    split at hgen
    · exact Except.noConfusion hgen
    · split at hgen
      · exact Except.noConfusion hgen
      · split at hgen
        · have h1 : some ([] : List LootItem) = some l := by injection hgen
          have hl : l = [] := by
            injection h1 with h2
            exact h2.symm
          rw [hl] at hit
          exact absurd hit (List.not_mem_nil it)
        · have hloop : lootLoop (validateValue (validateRarity
              (filteredItems items incl excl minr maxr))) points materials o fuel 0 0 []
              = some l := by
            injection hgen
          rcases lootLoop_mem_src _ _ _ _ _ _ _ _ _ hloop it hit with hnil | ⟨src, hsrc, hrar, htags⟩
          · exact absurd hnil (List.not_mem_nil it)
          · have hsrcF : src ∈ filteredItems items incl excl minr maxr :=
              ((validated_mem _ src).mp hsrc).1
            have hpass : itemPasses incl excl minr maxr src = true :=
              (List.mem_filter.mp hsrcF).2
            have hspec := itemPasses_spec incl excl minr maxr src hpass
            rw [← hrar, ← htags] at hspec
            exact hspec

/-- C3 witness: with every filter supplied (include, exclude, both rarity
bounds) the generated item meets them all; here the inclusion predicate. -/
theorem C3_witness :
    ∃ t ∈ (["x"] : List String), t ∈ (⟨"A", 1, "", 1, ["x"]⟩ : LootItem).tags :=
  ((C3_filters_respected [⟨"A", 1, "", 1, ["x"]⟩] 1 (some ["x"]) (some ["y"])
      (some 1) (some 1) [] (fun _ => 0) 1 [⟨"A", 1, "", 1, ["x"]⟩] (by decide)
      ⟨"A", 1, "", 1, ["x"]⟩ (by decide)).1) ["x"] rfl (by decide)

/-- C3 counterexample: an item can be generated under a supplied (but
empty) `include_tags` whose tag set does not intersect it — Python treats
the empty list as "no filter", while the claim requires intersection with
every supplied `include_tags`. -/
theorem C3_counterexample :
    generate_loot [⟨"A", 1, "", 1, ["x"]⟩] 1 (some []) none none none []
      (fun _ => 0) 1 = .ok (some [⟨"A", 1, "", 1, ["x"]⟩]) ∧
    ¬ ∃ t ∈ ([] : List String), t ∈ (⟨"A", 1, "", 1, ["x"]⟩ : LootItem).tags := by
  refine ⟨by decide, ?_⟩
  rintro ⟨t, ht, _⟩
  exact absurd ht (List.not_mem_nil t)

/-- C4 (amended): with a positive budget, `generate` fails with
`InvalidCatalog` exactly when the filtered candidate set is non-empty and
dropping the candidates with `rarity ≤ 0` empties it, or when the
candidates *surviving the rarity drop* are non-empty and dropping those
with `point_value ≤ 0` empties them — the point-value check runs on the
rarity survivors, not independently on the original filtered set.  Each
message enumerates the offending item names, and a filtered catalog
containing an item with positive rarity and positive point value never
fails this way. -/
theorem C4_invalid_catalog_iff (items : List LootItem) (points : Int)
    (incl excl : Option (List String)) (minr maxr : Option Int)
    (materials : List Material) (o : Nat → Nat) (fuel : Nat) (hp : 0 < points) :
    ((∃ msg, generate_loot items points incl excl minr maxr materials o fuel
        = .error (.invalidCatalog msg)) ↔
      ((filteredItems items incl excl minr maxr ≠ [] ∧
        (filteredItems items incl excl minr maxr).filter
          (fun i => decide (0 < i.rarity)) = []) ∨
      ((filteredItems items incl excl minr maxr).filter
          (fun i => decide (0 < i.rarity)) ≠ [] ∧
        ((filteredItems items incl excl minr maxr).filter
          (fun i => decide (0 < i.rarity))).filter
          (fun i => decide (0 < i.point_value)) = []))) ∧
    (rarityFails (filteredItems items incl excl minr maxr) = true →
      generate_loot items points incl excl minr maxr materials o fuel
        = .error (.invalidCatalog ("All filtered items have non-positive rarity: "
            ++ joinNames (rarityInvalid (filteredItems items incl excl minr maxr))))) ∧
    ((∃ i ∈ filteredItems items incl excl minr maxr, 0 < i.rarity ∧ 0 < i.point_value) →
      ∀ msg, generate_loot items points incl excl minr maxr materials o fuel
        ≠ .error (.invalidCatalog msg)) := by
  have hiff : (∃ msg, generate_loot items points incl excl minr maxr materials o fuel
      = .error (.invalidCatalog msg)) ↔
      ((filteredItems items incl excl minr maxr ≠ [] ∧
        (filteredItems items incl excl minr maxr).filter
          (fun i => decide (0 < i.rarity)) = []) ∨
      ((filteredItems items incl excl minr maxr).filter
          (fun i => decide (0 < i.rarity)) ≠ [] ∧
        ((filteredItems items incl excl minr maxr).filter
          (fun i => decide (0 < i.rarity))).filter
          (fun i => decide (0 < i.point_value)) = [])) := by
    constructor
    · rintro ⟨msg, hmsg⟩
      unfold generate_loot at hmsg
      rw [if_neg (by omega)] at hmsg
      dsimp only at hmsg
      split at hmsg
      · next hrf =>
        exact Or.inl (rarityFails_iff _ |>.mp hrf)
      · split at hmsg
        · next hvf =>
          rw [valueFails_iff, validateRarity_eq] at hvf
          exact Or.inr hvf
        · split at hmsg
          · exact Except.noConfusion hmsg
          · exact Except.noConfusion hmsg
    · intro hcase
      unfold generate_loot
      rw [if_neg (by omega)]
      dsimp only
      rcases hcase with ⟨hne, hnil⟩ | ⟨hne, hnil⟩
      · rw [if_pos (rarityFails_iff _ |>.mpr ⟨hne, hnil⟩)]
        exact ⟨_, rfl⟩
      · have hrf : rarityFails (filteredItems items incl excl minr maxr) = false := by
          rcases Bool.eq_false_or_eq_true
              (rarityFails (filteredItems items incl excl minr maxr)) with h | h
          · exact absurd (rarityFails_iff _ |>.mp h).2 hne
          · exact h
        rw [hrf]
        rw [if_neg (by simp)]
        have hvf : valueFails (validateRarity
            (filteredItems items incl excl minr maxr)) = true := by
          rw [valueFails_iff, validateRarity_eq]
          exact ⟨hne, hnil⟩
        rw [if_pos hvf]
        exact ⟨_, rfl⟩
  refine ⟨hiff, ?_, ?_⟩
  · intro hrf
    unfold generate_loot
    rw [if_neg (by omega)]
    dsimp only
    rw [if_pos hrf]
  · rintro ⟨i, hiF, hir, hiv⟩ msg heq
    rcases hiff.mp ⟨msg, heq⟩ with ⟨hne, hnil⟩ | ⟨hne, hnil⟩
    · have hmem : i ∈ (filteredItems items incl excl minr maxr).filter
          (fun it => decide (0 < it.rarity)) :=
        List.mem_filter.mpr ⟨hiF, by simpa using hir⟩
      rw [hnil] at hmem
      exact absurd hmem (List.not_mem_nil i)
    · have hmem : i ∈ ((filteredItems items incl excl minr maxr).filter
          (fun it => decide (0 < it.rarity))).filter
          (fun it => decide (0 < it.point_value)) :=
        List.mem_filter.mpr
          ⟨List.mem_filter.mpr ⟨hiF, by simpa using hir⟩, by simpa using hiv⟩
      rw [hnil] at hmem
      exact absurd hmem (List.not_mem_nil i)

/-- C4 witness: a single-item catalog whose only entry has non-positive
rarity fails with the enumerating `InvalidCatalog` message. -/
theorem C4_witness :
    generate_loot [⟨"Bad", 0, "", 5, []⟩] 5 none none none none [] (fun _ => 0) 5
      = .error (.invalidCatalog "All filtered items have non-positive rarity: Bad") := by
  have h := (C4_invalid_catalog_iff [⟨"Bad", 0, "", 5, []⟩] 5 none none none none
    [] (fun _ => 0) 5 (by norm_num)).2.1 (by decide)
  rw [h]
  rfl

/-- C4 counterexample: for the filtered set `[A(rarity 1, cost 0),
B(rarity 0, cost 5)]` neither drop taken on the *original* filtered set
empties it (A survives the rarity drop, B survives the cost drop), so the
claim predicts no failure — but the code drops B in the rarity pass and
then finds the survivor set `[A]` emptied by the cost pass, raising
`InvalidCatalog`. -/
theorem C4_counterexample :
    generate_loot [⟨"A", 1, "", 0, []⟩, ⟨"B", 0, "", 5, []⟩] 5 none none none none
      [] (fun _ => 0) 5
      = .error (.invalidCatalog "All filtered items have non-positive point value: A") ∧
    filteredItems [⟨"A", 1, "", 0, []⟩, ⟨"B", 0, "", 5, []⟩] none none none none
      = [⟨"A", 1, "", 0, []⟩, ⟨"B", 0, "", 5, []⟩] ∧
    ([⟨"A", 1, "", 0, []⟩, ⟨"B", 0, "", 5, []⟩] : List LootItem).filter
      (fun i => decide (0 < i.rarity)) ≠ [] ∧
    ([⟨"A", 1, "", 0, []⟩, ⟨"B", 0, "", 5, []⟩] : List LootItem).filter
      (fun i => decide (0 < i.point_value)) ≠ [] := by
  decide

/-- C1 (amended): when no material catalog is supplied, the sum of the
point costs of any completed generation never exceeds `points` (each draw is
restricted to candidates whose cost fits the remaining budget). -/
theorem C1_budget_respected (items : List LootItem) (points : Int)
    (incl excl : Option (List String)) (minr maxr : Option Int)
    (o : Nat → Nat) (fuel : Nat) (l : List LootItem)
    (hgen : generate_loot items points incl excl minr maxr [] o fuel = .ok (some l)) :
    lootSum l ≤ points := by
  by_cases hp : points ≤ 0
  · unfold generate_loot at hgen
    rw [if_pos hp] at hgen
    exact Except.noConfusion hgen
  · unfold generate_loot at hgen
    rw [if_neg hp] at hgen
    dsimp only at hgen
    split at hgen
    · exact Except.noConfusion hgen
    · split at hgen
      · exact Except.noConfusion hgen
      · split at hgen
        · have h1 : some ([] : List LootItem) = some l := by injection hgen
          have hl : l = [] := by
            injection h1 with h2
            exact h2.symm
          rw [hl]
          simp only [lootSum, List.map_nil, List.sum_nil]
          omega
        · have hloop : lootLoop (validateValue (validateRarity
              (filteredItems items incl excl minr maxr))) points [] o fuel 0 0 []
              = some l := by
            injection hgen
          exact lootLoop_sum_le _ points o fuel 0 0 [] l hloop
            (by simp [lootSum]) (by omega)

/-- C1 witness: a completed run with one affordable item stays within the
budget. -/
theorem C1_witness : lootSum [⟨"A", 1, "", 1, []⟩] ≤ 1 :=
  C1_budget_respected [⟨"A", 1, "", 1, []⟩] 1 none none none none (fun _ => 0) 1
    [⟨"A", 1, "", 1, []⟩] (by decide)

/-- C1 counterexample: with a material catalog, the budget check uses the
base cost but the accumulated total uses the resolved cost, so a modifier
above 1 pushes the sum past `points`: one item of base cost 10 resolved with
a 1.2 modifier yields a sequence of total cost 12 against a budget of 10. -/
theorem C1_counterexample :
    generate_loot [⟨"[Metal] Sword", 1, "", 10, []⟩] 10 none none none none
      [⟨"Steel", Rat.divInt 6 5, "Metal"⟩] (fun _ => 0) 10
      = .ok (some [⟨"Steel Sword", 1, "", 12, []⟩]) ∧
    ¬ lootSum [⟨"Steel Sword", 1, "", 12, []⟩] ≤ 10 := by
  decide

/-- C2 (amended): when no material catalog is supplied every selected cost
is positive, so each iteration strictly reduces the remaining budget and the
loop finishes within at most `points` iterations: with `points.toNat` fuel
the generator either fails fast or returns a (possibly partial) result. -/
theorem C2_terminates (items : List LootItem) (points : Int)
    (incl excl : Option (List String)) (minr maxr : Option Int) (o : Nat → Nat) :
    (∃ e, generate_loot items points incl excl minr maxr [] o points.toNat
        = .error e) ∨
    (∃ l, generate_loot items points incl excl minr maxr [] o points.toNat
        = .ok (some l)) := by
  by_cases hp : points ≤ 0
  · left
    exact ⟨_, by unfold generate_loot; rw [if_pos hp]⟩
  · unfold generate_loot
    rw [if_neg hp]
    dsimp only
    split
    · left
      exact ⟨_, rfl⟩
    · split
      · left
        exact ⟨_, rfl⟩
      · split
        · right
          exact ⟨[], rfl⟩
        · right
          have hpos : ∀ i ∈ validateValue (validateRarity
              (filteredItems items incl excl minr maxr)), 0 < i.point_value := by
            intro i hi
            exact ((validated_mem _ i).mp hi).2.2
          have hne := lootLoop_fuel_enough _ points o hpos points.toNat 0 0 [] (by omega)
          cases hcase : lootLoop (validateValue (validateRarity
              (filteredItems items incl excl minr maxr))) points [] o points.toNat 0 0 [] with
          | none => exact absurd hcase hne
          | some l => exact ⟨l, rfl⟩

/-- C2 counterexample: a material whose modifier rounds an item's cost down
to zero makes an iteration leave the remaining budget unchanged, so the
claimed bound of at most `points` iterations fails — after `points` (= 10)
iterations the loop is still running. -/
theorem C2_counterexample :
    generate_loot [⟨"[Metal] Rock", 1, "", 10, []⟩] 10 none none none none
      [⟨"Cursed", Rat.divInt 1 100, "Metal"⟩] (fun _ => 0) 10 = .ok none := by
  decide

end ULG
